import Mathlib

/-!
Verification development for the tool-calling agent runtime of the
`langchain_typescript` repository.

The repository's scripts register tools (`get_user_location`, `get_weather`)
with an agent created by `createAgent`, pass a trusted `RuntimeContext`
through `invoke`, and optionally persist conversation memory keyed by a
`thread_id` plus a structured `responseFormat`.  The tool executors, their
zod schemas and the runtime configurations are embedded here directly from
the TypeScript sources.  The agent loop, tool registry dispatch and
conversation store themselves live in the external orchestration framework;
they are modelled from the specification's state-machine description
(spec sections 3, 4.1, 4.3, 6).
-/

namespace Agent

/-! ## JSON-like values and zod-style object schemas -/

/-- A JSON-like value, as exchanged between model and tools (tool-call
argument objects, structured responses). -/
inductive JsonVal where
  | str (s : String)
  | num (n : Int)
  | obj (fields : List (String × JsonVal))
deriving Repr

/-- The field types occurring in the repository's zod schemas
(`z.string()`, `z.number()`). -/
inductive JsonTy where
  | str
  | num
deriving Repr, DecidableEq

/-- One field of a zod object schema; `required = false` embeds
`.optional()` (part_004's `weather_conditions: z.string().optional()`). -/
structure FieldSpec where
  fname : String
  ty : JsonTy
  required : Bool
deriving Repr

/-- A zod `z.object({...})` schema: an ordered list of field specs. -/
structure ObjSchema where
  fields : List FieldSpec
deriving Repr

/-- Does a value match a field type? -/
def tyMatches : JsonTy → JsonVal → Bool
  | .str, .str _ => true
  | .num, .num _ => true
  | _, _ => false

/-- Validate the raw fields of an argument object against the schema's field
list, returning the validated (projected) fields: a required field that is
missing or of the wrong type fails; unknown keys are stripped, as zod's
default object parsing does. -/
def validateFields (fs : List (String × JsonVal)) : List FieldSpec → Option (List (String × JsonVal))
  | [] => some []
  | spec :: rest =>
    match fs.lookup spec.fname with
    | some v =>
      if tyMatches spec.ty v then
        (validateFields fs rest).map (fun tail => (spec.fname, v) :: tail)
      else none
    | none => if spec.required then none else validateFields fs rest

/-- `validate sch raw`: zod-style parse of a raw argument value against an
object schema, returning the validated argument object on success. -/
def validate (sch : ObjSchema) : JsonVal → Option JsonVal
  | .obj fs => (validateFields fs sch.fields).map JsonVal.obj
  | _ => none

/-! ## Runtime context, tools, registry -/

/-- The trusted runtime context: an opaque key-value bag supplied by the
caller at invocation time (`config.context` in the scripts). -/
def RuntimeContext := List (String × String)

/-- Look a key up in the runtime context (`config.context.user_id`;
`none` embeds JavaScript `undefined`). -/
def ctxGet (ctx : RuntimeContext) (key : String) : Option String :=
  List.lookup key ctx

/-- A registered tool: name, description, input schema and executor.  The
executor receives the validated argument object and the runtime context and
may fail (`throw` in the scripts is `Except.error`). -/
structure Tool where
  name : String
  description : String
  schema : ObjSchema
  executor : JsonVal → RuntimeContext → Except String String

/-- Look a tool up by the name the model emitted. -/
def lookupTool (reg : List Tool) (n : String) : Option Tool :=
  reg.find? (fun t => t.name == n)

/-! ## Error taxonomy (spec section 7) -/

/-- Modelled from the spec: the error taxonomy of section 7. -/
inductive AgentError where
  | duplicateName
  | unknownTool
  | invalidArguments
  | toolExecution (msg : String)
  | gatewayParse
  | gatewayTimeout
  | recursionLimitExceeded
  | schemaNotSatisfied
  | concurrentThreadAccess
deriving Repr, DecidableEq

/-! ## Messages -/

/-- Result kind of a tool-result message: ordinary output or a surfaced,
recoverable error. -/
inductive ResKind where
  | ok
  | err
deriving Repr, DecidableEq

/-- A message of the conversation history: tagged variant over user,
assistant-text, assistant-tool-call and tool-result, plus the system policy
message the loop prepends for the gateway. -/
inductive Message where
  | system (content : String)
  | user (content : String)
  | assistantText (content : String)
  | assistantToolCalls (calls : List (String × JsonVal))
  | toolResult (name : String) (kind : ResKind) (content : String)
deriving Repr

/-! ## Tool resolution (spec section 4.1) -/

/-- Modelled from the spec: the outcome of `resolve(name, rawArgs)` together
with the trace of executor invocations it performed, each recorded with the
argument object and runtime context passed to the executor. -/
structure Resolution where
  result : Except AgentError String
  calls : List (String × JsonVal × RuntimeContext)

/-- Modelled from the spec: `resolve(name, rawArgs)` of the Tool Registry
(section 4.1) — look the tool up by name (UnknownToolError if absent),
validate the raw arguments against its `inputSchema` (InvalidArgumentsError
on mismatch), then invoke `executor(validatedArgs, runtimeContext)`; an
executor failure becomes a recoverable ToolExecutionError. -/
def resolve (reg : List Tool) (ctx : RuntimeContext) (n : String) (raw : JsonVal) : Resolution :=
  match lookupTool reg n with
  | none => ⟨.error .unknownTool, []⟩
  | some t =>
    match validate t.schema raw with
    | none => ⟨.error .invalidArguments, []⟩
    | some v =>
      match t.executor v ctx with
      | .ok s => ⟨.ok s, [(n, v, ctx)]⟩
      | .error m => ⟨.error (.toolExecution m), [(n, v, ctx)]⟩

/-- Rendering of a recoverable error into the content of a tool-result
message of kind "error" shown to the model. -/
def errText : AgentError → String
  | .unknownTool => "UnknownToolError"
  | .invalidArguments => "InvalidArgumentsError"
  | .toolExecution m => m
  | _ => "error"

/-- Modelled from the spec: dispatch of one tool call of a model turn —
resolve it through the registry and surface the outcome as a tool-result
message (kind "error" on a recoverable failure, never a fatal abort). -/
def dispatchOne (reg : List Tool) (ctx : RuntimeContext) (call : String × JsonVal) : Message :=
  match (resolve reg ctx call.1 call.2).result with
  | .ok s => .toolResult call.1 .ok s
  | .error e => .toolResult call.1 .err (errText e)

/-! ## Model gateway replies and the agent loop (spec sections 4.2, 4.3) -/

/-- Modelled from the spec: `ModelReply`, the tagged variant the Model
Gateway parses a backend reply into (section 4.2). -/
inductive ModelReply where
  | finalText (s : String)
  | toolCalls (calls : List (String × JsonVal))
  | structuredFinal (v : JsonVal)
deriving Repr

/-- The Model Gateway abstracted as a function from the model-visible
history to a parsed reply (the backend is a black box; a concrete
function stands for one deterministic behaviour of it). -/
def ModelFn := List Message → ModelReply

/-- Rendering of a flat structured value into final assistant text; the
repository's response formats are flat objects of strings. -/
def renderLeaf : JsonVal → String
  | .str s => s
  | .num n => toString n
  | .obj _ => "object"

/-- Render a structured final value as assistant-message text. -/
def renderJson : JsonVal → String
  | .obj fs => String.intercalate ", " (fs.map (fun p => p.1 ++ ": " ++ renderLeaf p.2))
  | v => renderLeaf v

/-- Modelled from the spec: the terminal result of one `invoke` — `Done`
with the full updated history and the optional structured response, or
`Failed` with a typed error and the partial history (section 4.3). -/
inductive Outcome where
  | done (history : List Message) (structured : Option JsonVal)
  | failed (err : AgentError) (history : List Message)
deriving Repr

/-- The (possibly partial) history an outcome carries. -/
def outcomeHistory : Outcome → List Message
  | .done h _ => h
  | .failed _ h => h

/-- Did the invocation reach `Done`? -/
def isDone : Outcome → Bool
  | .done _ _ => true
  | .failed _ _ => false

/-- The system message the loop appends when re-prompting for
structured-output compliance. -/
def repromptMsg : Message :=
  .system "The response did not satisfy the required output schema; respond again in the required structured format."

/-- Modelled from the spec: the Agent Loop state machine of section 4.3,
missing from the repository (it lives in the orchestration framework).
`fuel` is the number of `AwaitingModel` entries the step counter still
allows (`maxSteps` at the start); `pend` is the failure reported when the
counter is exceeded: `RecursionLimitExceeded` in general, or
`SchemaNotSatisfiedError` when the previous reply was a final answer that
did not satisfy the supplied response contract.  On `ToolCalls` every call
of the turn is dispatched sequentially in emission order; on a final reply
with a contract the loop terminates only when the reply validates against
the contract, otherwise it re-prompts. -/
def runLoop (reg : List Tool) (ctx : RuntimeContext) (contract : Option ObjSchema)
    (sp : String) (model : ModelFn) : Nat → AgentError → List Message → Outcome
  | 0, pend, conv => .failed pend conv
  | fuel + 1, _, conv =>
    match model (Message.system sp :: conv) with
    | .toolCalls calls =>
      runLoop reg ctx contract sp model fuel .recursionLimitExceeded
        (conv ++ [Message.assistantToolCalls calls] ++ calls.map (dispatchOne reg ctx))
    | .finalText s =>
      match contract with
      | none => .done (conv ++ [Message.assistantText s]) none
      | some _ =>
        runLoop reg ctx contract sp model fuel .schemaNotSatisfied
          (conv ++ [Message.assistantText s, repromptMsg])
    | .structuredFinal v =>
      match contract with
      | none => .done (conv ++ [Message.assistantText (renderJson v)]) none
      | some sch =>
        match validate sch v with
        | some v' => .done (conv ++ [Message.assistantText (renderJson v)]) (some v')
        | none =>
          runLoop reg ctx contract sp model fuel .schemaNotSatisfied
            (conv ++ [Message.assistantText (renderJson v), repromptMsg])

/-! ## Conversation store and invocation (spec sections 3, 6) -/

/-- Modelled from the spec: the Conversation Store — a mapping from thread
id to the thread's ordered message list (section 6; `MemorySaver` in the
scripts). -/
def Store := List (String × List Message)

/-- The stored history of a thread id (empty on first use). -/
def lookupStore (st : Store) (tid : String) : List Message :=
  (List.lookup tid st).getD []

/-- Persist the full updated message sequence under a thread id. -/
def setStore (st : Store) (tid : String) (h : List Message) : Store :=
  (tid, h) :: st

/-- The agent built by `createAgent`: system prompt, registered tools,
optional structured response format. -/
structure AgentSpec where
  systemPrompt : String
  tools : List Tool
  responseFormat : Option ObjSchema

/-- The per-invocation options: optional thread id, trusted runtime
context, and the step (recursion) limit. -/
structure InvokeOptions where
  threadId : Option String
  context : RuntimeContext
  maxSteps : Nat

/-- What one `invoke` returns, paired with the conversation store as it
stands after the invocation. -/
structure InvokeResult where
  outcome : Outcome
  store : Store

/-- The history an invocation replays: the thread's stored history when a
thread id is given, empty otherwise. -/
def replayed (store : Store) : Option String → List Message
  | none => []
  | some tid => lookupStore store tid

/-- Modelled from the spec: how `invoke` commits to the Conversation Store
(section 4.3) — on `Done` with a thread id the full updated sequence is
persisted; on `Failed`, or without a thread id, nothing is committed. -/
def commitStore (store : Store) (tidOpt : Option String) : Outcome → Store
  | .done h _ =>
    match tidOpt with
    | some tid => setStore store tid h
    | none => store
  | .failed _ _ => store

/-- Modelled from the spec: `invoke` (sections 4.3 and 6), missing from the
repository (it lives in the orchestration framework) — replay the thread's
prior history from the Conversation Store, append the new user messages,
run the Agent Loop seeded with the system policy, and commit the outcome
to the store. -/
def invoke (ag : AgentSpec) (model : ModelFn) (store : Store)
    (opts : InvokeOptions) (msgs : List String) : InvokeResult :=
  let out := runLoop ag.tools opts.context ag.responseFormat ag.systemPrompt model
    opts.maxSteps .recursionLimitExceeded
    (replayed store opts.threadId ++ msgs.map Message.user)
  ⟨out, commitStore store opts.threadId out⟩

/-! ## Observers on histories -/

/-- Contents of the `user` messages of a history, in order. -/
def userContents (h : List Message) : List String :=
  h.filterMap (fun m => match m with | .user c => some c | _ => none)

/-- Names of the tool calls the assistant emitted, in emission order across
all turns. -/
def toolCallNames (h : List Message) : List String :=
  (h.filterMap (fun m => match m with
    | .assistantToolCalls cs => some (cs.map Prod.fst)
    | _ => none)).flatten

/-- The (tool name, kind, content) triples of the tool-result messages of a
history, in order. -/
def toolResultRecords (h : List Message) : List (String × ResKind × String) :=
  h.filterMap (fun m => match m with
    | .toolResult n k c => some (n, k, c)
    | _ => none)

/-- Contents of the tool-result messages of a history, in order. -/
def toolResultContents (h : List Message) : List String :=
  h.filterMap (fun m => match m with | .toolResult _ _ c => some c | _ => none)

/-- The content of the last assistant text message (what the scripts print
via `result.messages.at(-1)?.content`). -/
def finalAssistant (h : List Message) : Option String :=
  (h.filterMap (fun m => match m with | .assistantText c => some c | _ => none)).getLast?

/-- Every textual content of the conversation's messages: user text,
assistant text and tool-result contents (everything the run itself
serializes into model-visible messages). -/
def msgContents (h : List Message) : List String :=
  h.filterMap (fun m => match m with
    | .user c => some c
    | .assistantText c => some c
    | .toolResult _ _ c => some c
    | _ => none)

/-- Does the pattern occur as a contiguous run of one of the list's
suffixes? -/
def strContainsAux (pat : List Char) : List Char → Bool
  | [] => pat.isEmpty
  | c :: rest => pat.isPrefixOf (c :: rest) || strContainsAux pat rest

/-- Substring test: does `pat` occur inside `s`? -/
def containsStr (s pat : String) : Bool :=
  strContainsAux pat.toList s.toList

/-- Read a string field out of a validated argument object
(the `({ city })` destructuring of the tool executors). -/
def getStr (v : JsonVal) (k : String) : Option String :=
  match v with
  | .obj fs =>
    match fs.lookup k with
    | some (.str s) => some s
    | _ => none
  | _ => none

/-! ## The repository's schemas and tools, embedded from the sources -/

/-- `z.object({})` — the empty input schema of `get_user_location`. -/
def emptySchema : ObjSchema := ⟨[]⟩

/-- `z.object({ city: z.string() })` — the input schema of `get_weather`. -/
def citySchema : ObjSchema := ⟨[⟨"city", .str, true⟩]⟩

/-- `src/unnamed/part_002` lines 63–122: the `get_user_location` tool —
ignores the model's arguments and reads `config.context.user_id`; returns
"New York" when it equals "1", else "San Francisco" (an absent `user_id`
compares unequal to "1", as `undefined === "1"` is false). -/
def getUserLocation_part002 : Tool :=
  { name := "get_user_location"
    description := "Retrieves the user's current location based on their user ID."
    schema := emptySchema
    executor := fun _ ctx =>
      .ok (if ctxGet ctx "user_id" = some "1" then "New York" else "San Francisco") }

/-- `src/unnamed/part_002` lines 133–159: the `get_weather` tool —
takes the validated `{ city }` argument and returns
"It's always sunny in <city>". -/
def getWeather_part002 : Tool :=
  { name := "get_weather"
    description := "Retrieves the weather for a given city."
    schema := citySchema
    executor := fun args _ =>
      .ok ("It's always sunny in " ++ (getStr args "city").getD "") }

/-- `src/src/langchain/4_component_model/1_customize_models.ts` lines 51–67
(and `src/unnamed/part_005` lines 64–79): the strict `get_user_location`
variant — throws "user_id missing from execution context" when
`config?.context?.user_id` is falsy (absent or empty), else branches on it. -/
def getUserLocation_strict : Tool :=
  { name := "get_user_location"
    description := "Retrieve the user's current location from backend context"
    schema := emptySchema
    executor := fun _ ctx =>
      match ctxGet ctx "user_id" with
      | none => .error "user_id missing from execution context"
      | some uid =>
        if uid = "" then .error "user_id missing from execution context"
        else .ok (if uid = "1" then "New York" else "San Francisco") }

/-- `src/unnamed/part_004` lines 28–38: the `get_user_location` variant of
the memory example — "Florida" for `user_id` "1", else "SF". -/
def getUserLocation_part004 : Tool :=
  { name := "get_user_location"
    description := "Retrieve user information based on user ID"
    schema := emptySchema
    executor := fun _ ctx =>
      .ok (if ctxGet ctx "user_id" = some "1" then "Florida" else "SF") }

/-- A user record of the demo database of `src/unnamed/part_003`. -/
structure UserRec where
  city : String
deriving Repr, DecidableEq

/-- `src/unnamed/part_003` lines 40–50: the demo users table
(`"1" → New York`, `"2" → San Francisco`). -/
def usersTable : List (String × UserRec) :=
  [("1", ⟨"New York"⟩), ("2", ⟨"San Francisco"⟩)]

/-- `src/unnamed/part_003` lines 42–48: `db.users.getById` — the table
lookup with the `?? { city: "Unknown" }` fallback; the argument is
`Option String` because the caller passes `config.context?.userId`, which
may be `undefined`. -/
def db_users_getById (userId : Option String) : UserRec :=
  match userId with
  | some uid => (List.lookup uid usersTable).getD ⟨"Unknown"⟩
  | none => ⟨"Unknown"⟩

/-- `src/unnamed/part_003` lines 86–111: the `get_user_location` variant
backed by `db.users.getById`; reads `config.context?.userId` and returns
the looked-up user's city. -/
def getUserLocation_part003 : Tool :=
  { name := "get_user_location"
    description := "Get the user's location based on authenticated user context."
    schema := emptySchema
    executor := fun _ ctx => .ok (db_users_getById (ctxGet ctx "userId")).city }

/-- `src/unnamed/part_003` lines 124–135: the `get_weather` variant of the
runtime-configuration example. -/
def getWeather_part003 : Tool :=
  { name := "get_weather"
    description := "Get the current weather for a given city"
    schema := citySchema
    executor := fun args _ =>
      .ok ("It's always sunny in " ++ (getStr args "city").getD "" ++ "! (72F, clear skies)") }

/-- `src/unnamed/part_002` lines 39–49: the system prompt of the weather
agent. -/
def systemPrompt_part002 : String :=
  "You are an expert weather assistant. If the user asks about the weather, ensure you know the location first. If the question implies wherever I am, use get_user_location. Then use get_weather to answer."

/-- `src/unnamed/part_002` lines 221–225: the agent of the context example —
tools `get_user_location` and `get_weather`, no response format. -/
def weatherAgent_part002 : AgentSpec :=
  { systemPrompt := systemPrompt_part002
    tools := [getUserLocation_part002, getWeather_part002]
    responseFormat := none }

/-- The structured response format of
`src/src/langchain/4_component_model/1_customize_models.ts` lines 174–177:
`z.object({ humour_response: z.string(), weather_conditions: z.string() })`. -/
def responseFormat_customize : ObjSchema :=
  ⟨[⟨"humour_response", .str, true⟩, ⟨"weather_conditions", .str, true⟩]⟩

/-- The `{a: string, b: number}` response schema of the spec's
structured-output conformance property (section 8). -/
def abSchema : ObjSchema :=
  ⟨[⟨"a", .str, true⟩, ⟨"b", .num, true⟩]⟩

/-- A deterministic Model Gateway behaviour realizing the scripted flow of
`src/unnamed/part_002` lines 227–252: with no tool result yet, call
`get_user_location` with no arguments; with one, call `get_weather` on the
returned city; with both, emit the weather tool's output as the final
answer. -/
def weatherScript : ModelFn := fun h =>
  match toolResultContents h with
  | [] => .toolCalls [("get_user_location", .obj [])]
  | [loc] => .toolCalls [("get_weather", .obj [("city", .str loc)])]
  | _ :: w :: _ => .finalText w

/-- A model that always requests a tool call and never emits a final
answer (the adversary of the spec's step-limit termination property). -/
def alwaysToolCall : ModelFn := fun _ =>
  .toolCalls [("get_weather", .obj [("city", .str "Paris")])]

/-- A model that always answers `{a: "x"}` — the nonconforming reply of
the spec's structured-output conformance property (field `b` missing). -/
def alwaysMissingB : ModelFn := fun _ =>
  .structuredFinal (.obj [("a", .str "x")])

/-- The user message of the weather scenario (`src/unnamed/part_004`
line 77). -/
def weatherQuestion : String := "what is the weather outside?"

/-- The runtime context of `src/unnamed/part_002` lines 176–183:
`{ context: { user_id: "1" } }`. -/
def ctxUser1 : RuntimeContext := [("user_id", "1")]

/-- A runtime context carrying `user_id: "2"` (the second run of the spec's
context-isolation property). -/
def ctxUser2 : RuntimeContext := [("user_id", "2")]

/-- The scripted weather scenario: the part_002 agent invoked on the
weather question with a caller-chosen runtime context, no thread id, and
step limit 5. -/
def scenarioRun (c : RuntimeContext) : InvokeResult :=
  invoke weatherAgent_part002 weatherScript [] ⟨none, c, 5⟩ [weatherQuestion]

/-- The tool registry of `src/unnamed/part_005` lines 200–206 (and of
`1_customize_models.ts`): the strict `get_user_location` together with
`get_weather`. -/
def strictTools : List Tool := [getUserLocation_strict, getWeather_part002]

/-! ## Helper lemmas -/

/-- A tool found by `lookupTool` is a member of the registry. -/
theorem mem_of_lookupTool {reg : List Tool} {n : String} {t : Tool}
    (h : lookupTool reg n = some t) : t ∈ reg :=
  List.mem_of_find?_eq_some h

/-- `dispatchOne` always produces a tool-result message named after the
call. -/
theorem dispatchOne_shape (reg : List Tool) (ctx : RuntimeContext) (call : String × JsonVal) :
    ∃ k c, dispatchOne reg ctx call = .toolResult call.1 k c := by
  unfold dispatchOne
  cases (resolve reg ctx call.1 call.2).result with
  | ok s => exact ⟨.ok, s, rfl⟩
  | error e => exact ⟨.err, errText e, rfl⟩

/-- Two runtime contexts on which every registered executor agrees produce
the same dispatch result. -/
theorem dispatchOne_congr {reg : List Tool} {ctx ctx' : RuntimeContext}
    (hag : ∀ t ∈ reg, ∀ a, t.executor a ctx = t.executor a ctx')
    (call : String × JsonVal) :
    dispatchOne reg ctx call = dispatchOne reg ctx' call := by
  unfold dispatchOne resolve
  cases hfind : lookupTool reg call.1 with
  | none => rfl
  | some t =>
    cases hval : validate t.schema call.2 with
    | none => simp only [hval]
    | some v =>
      simp only [hval, hag t (mem_of_lookupTool hfind) v]
      cases t.executor v ctx' <;> rfl

/-- `userContents` distributes over append. -/
theorem userContents_append (a b : List Message) :
    userContents (a ++ b) = userContents a ++ userContents b :=
  List.filterMap_append a b _

/-- Dispatched tool results contribute no user messages. -/
theorem userContents_dispatch (reg : List Tool) (ctx : RuntimeContext)
    (calls : List (String × JsonVal)) :
    userContents (calls.map (dispatchOne reg ctx)) = [] := by
  induction calls with
  | nil => rfl
  | cons c cs ih =>
    obtain ⟨k, s, hd⟩ := dispatchOne_shape reg ctx c
    simp only [List.map_cons, userContents, List.filterMap_cons, hd]
    exact ih

/-- The agent loop never appends a user message: the user messages of the
outcome's history are exactly those of the seeded conversation. -/
theorem runLoop_userContents (reg : List Tool) (ctx : RuntimeContext)
    (contract : Option ObjSchema) (sp : String) (model : ModelFn) :
    ∀ (fuel : Nat) (pend : AgentError) (conv : List Message),
      userContents (outcomeHistory (runLoop reg ctx contract sp model fuel pend conv))
        = userContents conv := by
  intro fuel
  induction fuel with
  | zero => intro pend conv; rfl
  | succ n ih =>
    intro pend conv
    rw [runLoop]
    cases hr : model (Message.system sp :: conv) with
    | toolCalls calls =>
      rw [ih]
      rw [userContents_append, userContents_append, userContents_dispatch]
      simp [userContents]
    | finalText s =>
      cases contract with
      | none => simp [outcomeHistory, userContents_append, userContents]
      | some sch =>
        rw [ih]
        rw [userContents_append]
        simp [userContents, repromptMsg]
    | structuredFinal v =>
      cases contract with
      | none => simp [outcomeHistory, userContents_append, userContents]
      | some sch =>
        cases hv : validate sch v with
        | some v' =>
          simp only [hv]
          simp [outcomeHistory, userContents_append, userContents]
        | none =>
          simp only [hv]
          rw [ih]
          rw [userContents_append]
          simp [userContents, repromptMsg]

/-- A string is among the user contents of a history exactly when the
corresponding user message is in the history. -/
theorem mem_userContents {s : String} {h : List Message} :
    s ∈ userContents h ↔ Message.user s ∈ h := by
  unfold userContents
  rw [List.mem_filterMap]
  constructor
  · rintro ⟨m, hm, he⟩
    cases m <;> simp_all
  · intro hm
    exact ⟨Message.user s, hm, rfl⟩

/-- Looking up the thread just saved yields the saved history. -/
theorem lookupStore_set_same (st : Store) (tid : String) (h : List Message) :
    lookupStore (setStore st tid h) tid = h := by
  simp [lookupStore, setStore, List.lookup]

/-- Saving one thread leaves every other thread's stored history
unchanged. -/
theorem lookupStore_set_other (st : Store) (tid tid' : String) (h : List Message)
    (hne : tid' ≠ tid) :
    lookupStore (setStore st tid h) tid' = lookupStore st tid' := by
  have hb : (tid' == tid) = false := beq_eq_false_iff_ne.mpr hne
  simp [lookupStore, setStore, List.lookup, hb]

/-- The loop is a function of the runtime context only through the
executors: two contexts on which every registered executor agrees yield
identical runs.  In particular the context itself is never an input of the
Model Gateway. -/
theorem runLoop_ctx_congr (reg : List Tool) {ctx ctx' : RuntimeContext}
    (hag : ∀ t ∈ reg, ∀ a, t.executor a ctx = t.executor a ctx')
    (contract : Option ObjSchema) (sp : String) (model : ModelFn) :
    ∀ (fuel : Nat) (pend : AgentError) (conv : List Message),
      runLoop reg ctx contract sp model fuel pend conv
        = runLoop reg ctx' contract sp model fuel pend conv := by
  intro fuel
  induction fuel with
  | zero => intro pend conv; rfl
  | succ n ih =>
    intro pend conv
    rw [runLoop, runLoop]
    cases hr : model (Message.system sp :: conv) with
    | toolCalls calls =>
      simp only [hr]
      have hmap : calls.map (dispatchOne reg ctx) = calls.map (dispatchOne reg ctx') :=
        List.map_congr_left (fun c _ => dispatchOne_congr hag c)
      rw [hmap]
      exact ih _ _
    | finalText s =>
      simp only [hr]
      cases contract with
      | none => rfl
      | some sch => exact ih _ _
    | structuredFinal v =>
      simp only [hr]
      cases contract with
      | none => rfl
      | some sch =>
        cases hv : validate sch v with
        | some v' => simp only [hv]
        | none => simp only [hv]; exact ih _ _

/-- With a response contract in force and a model whose every reply is
either plain text or a structured value that fails validation, the loop
exhausts its step budget and fails with SchemaNotSatisfiedError. -/
theorem runLoop_schema_fails (reg : List Tool) (ctx : RuntimeContext) (sch : ObjSchema)
    (sp : String) (model : ModelFn)
    (hm : ∀ h, (∃ s, model h = .finalText s)
      ∨ (∃ v, model h = .structuredFinal v ∧ validate sch v = none)) :
    ∀ (fuel : Nat), 1 ≤ fuel → ∀ (pend : AgentError) (conv : List Message),
      ∃ hist, runLoop reg ctx (some sch) sp model fuel pend conv
        = .failed .schemaNotSatisfied hist := by
  intro fuel
  induction fuel with
  | zero => intro hf; exact absurd hf (by omega)
  | succ n ih =>
    intro _ pend conv
    rw [runLoop]
    rcases hm (Message.system sp :: conv) with ⟨s, hr⟩ | ⟨v, hr, hv⟩
    · simp only [hr]
      cases n with
      | zero => exact ⟨_, by rw [runLoop]⟩
      | succ m => exact ih (by omega) _ _
    · simp only [hr, hv]
      cases n with
      | zero => exact ⟨_, by rw [runLoop]⟩
      | succ m => exact ih (by omega) _ _

/-- With a response contract in force, the loop reaches `Done` only
carrying a structured value obtained by validating a model reply against
the contract: a plain-text or nonconforming reply never terminates the
loop. -/
theorem runLoop_done_validated (reg : List Tool) (ctx : RuntimeContext) (sch : ObjSchema)
    (sp : String) (model : ModelFn) :
    ∀ (fuel : Nat) (pend : AgentError) (conv h : List Message) (sv : Option JsonVal),
      runLoop reg ctx (some sch) sp model fuel pend conv = .done h sv →
      ∃ v w, sv = some w ∧ validate sch v = some w := by
  intro fuel
  induction fuel with
  | zero =>
    intro pend conv h sv hrun
    rw [runLoop] at hrun
    exact Outcome.noConfusion hrun
  | succ n ih =>
    intro pend conv h sv hrun
    rw [runLoop] at hrun
    cases hr : model (Message.system sp :: conv) with
    | toolCalls calls =>
      rw [hr] at hrun
      exact ih _ _ _ _ hrun
    | finalText s =>
      rw [hr] at hrun
      exact ih _ _ _ _ hrun
    | structuredFinal v =>
      rw [hr] at hrun
      dsimp only at hrun
      cases hv : validate sch v with
      | some v' =>
        rw [hv] at hrun
        injection hrun with he1 he2
        exact ⟨v, v', he2.symm, hv⟩
      | none =>
        rw [hv] at hrun
        exact ih _ _ _ _ hrun

/-- A model that always requests tool calls drives the loop to exhaust any
step budget and fail with RecursionLimitExceeded. -/
theorem runLoop_alwaysTool (reg : List Tool) (ctx : RuntimeContext)
    (contract : Option ObjSchema) (sp : String) (model : ModelFn)
    (hm : ∀ h, ∃ calls, model h = ModelReply.toolCalls calls) :
    ∀ (fuel : Nat) (conv : List Message),
      ∃ hist, runLoop reg ctx contract sp model fuel .recursionLimitExceeded conv
        = .failed .recursionLimitExceeded hist := by
  intro fuel
  induction fuel with
  | zero => intro conv; exact ⟨conv, by rw [runLoop]⟩
  | succ n ih =>
    intro conv
    obtain ⟨calls, hr⟩ := hm (Message.system sp :: conv)
    rw [runLoop]
    simp only [hr]
    exact ih _

/-- Unfolding: the outcome of `invoke` is the loop run on the replayed
history plus the new user messages. -/
theorem invoke_outcome (ag : AgentSpec) (model : ModelFn) (store : Store)
    (opts : InvokeOptions) (msgs : List String) :
    (invoke ag model store opts msgs).outcome
      = runLoop ag.tools opts.context ag.responseFormat ag.systemPrompt model
          opts.maxSteps .recursionLimitExceeded
          (replayed store opts.threadId ++ msgs.map Message.user) := rfl

/-- Unfolding: the store after `invoke` is the commit of its outcome. -/
theorem invoke_store (ag : AgentSpec) (model : ModelFn) (store : Store)
    (opts : InvokeOptions) (msgs : List String) :
    (invoke ag model store opts msgs).store
      = commitStore store opts.threadId ((invoke ag model store opts msgs).outcome) := rfl

/-- The user contents of a mapped user-message list are the strings
themselves. -/
theorem userContents_map_user (msgs : List String) :
    userContents (msgs.map Message.user) = msgs := by
  induction msgs with
  | nil => rfl
  | cons m ms ih => simp only [List.map_cons, userContents, List.filterMap_cons]; rw [← userContents, ih]

/-- An invocation that reaches `Done` has exactly the replayed user
messages plus the new ones as its history's user contents. -/
theorem invoke_userContents (ag : AgentSpec) (model : ModelFn) (store : Store)
    (opts : InvokeOptions) (msgs : List String) (h : List Message) (sv : Option JsonVal)
    (hd : (invoke ag model store opts msgs).outcome = .done h sv) :
    userContents h = userContents (replayed store opts.threadId) ++ msgs := by
  have hl := runLoop_userContents ag.tools opts.context ag.responseFormat ag.systemPrompt
    model opts.maxSteps .recursionLimitExceeded
    (replayed store opts.threadId ++ msgs.map Message.user)
  rw [invoke_outcome] at hd
  rw [hd] at hl
  dsimp only [outcomeHistory] at hl
  rw [userContents_append, userContents_map_user] at hl
  exact hl

/-! ## Claim theorems -/

/-- C2.  Step-limit termination: for every configured `maxSteps`
(in particular `maxSteps = 1`) and every model that on each turn requests
a tool call and never emits a final answer, `invoke` terminates in the
`Failed` state with RecursionLimitExceeded rather than looping
indefinitely. -/
theorem step_limit_termination (ag : AgentSpec) (model : ModelFn) (store : Store)
    (opts : InvokeOptions) (msgs : List String)
    (hm : ∀ h, ∃ calls, model h = ModelReply.toolCalls calls) :
    ∃ hist, (invoke ag model store opts msgs).outcome
      = .failed .recursionLimitExceeded hist :=
  runLoop_alwaysTool ag.tools opts.context ag.responseFormat ag.systemPrompt model hm
    opts.maxSteps (replayed store opts.threadId ++ msgs.map Message.user)

/-- Witness for C2: the part_002 agent with `maxSteps = 1` and the
always-tool-calling model fails with RecursionLimitExceeded. -/
theorem step_limit_termination_witness :
    ∃ hist, (invoke weatherAgent_part002 alwaysToolCall [] ⟨some "1", ctxUser1, 1⟩ ["hi"]).outcome
      = Outcome.failed .recursionLimitExceeded hist :=
  step_limit_termination weatherAgent_part002 alwaysToolCall [] ⟨some "1", ctxUser1, 1⟩ ["hi"]
    (fun _ => ⟨_, rfl⟩)

/-- C3.  Structured-output enforcement: with a response contract supplied,
a plain-text or nonconforming model reply never causes a transition to
`Done` (the loop reaches `Done` only carrying a value validated against
the contract), and a model whose every reply is plain text or
nonconforming drives the invocation to `Failed` with
SchemaNotSatisfiedError once the step limit is reached. -/
theorem structured_output_enforcement (ag : AgentSpec) (sch : ObjSchema)
    (hrf : ag.responseFormat = some sch) (model : ModelFn)
    (hm : ∀ h, (∃ s, model h = .finalText s)
      ∨ (∃ v, model h = .structuredFinal v ∧ validate sch v = none))
    (store : Store) (opts : InvokeOptions) (msgs : List String)
    (hms : 1 ≤ opts.maxSteps) :
    (∃ hist, (invoke ag model store opts msgs).outcome = .failed .schemaNotSatisfied hist)
    ∧ (∀ (model' : ModelFn) (store' : Store) (opts' : InvokeOptions) (msgs' : List String)
        (h : List Message) (sv : Option JsonVal),
        (invoke ag model' store' opts' msgs').outcome = .done h sv →
        ∃ v w, sv = some w ∧ validate sch v = some w) := by
  constructor
  · rw [invoke_outcome, hrf]
    exact runLoop_schema_fails ag.tools opts.context sch ag.systemPrompt model hm
      opts.maxSteps hms .recursionLimitExceeded _
  · intro model' store' opts' msgs' h sv hdone
    rw [invoke_outcome, hrf] at hdone
    exact runLoop_done_validated ag.tools opts'.context sch ag.systemPrompt model' _ _ _ _ _ hdone

/-- Witness for C3: an agent whose contract is the spec's
`{a: string, b: number}` schema, run against the model that always answers
`{a: "x"}` (missing `b`), fails with SchemaNotSatisfiedError. -/
theorem structured_output_enforcement_witness :
    ∃ hist, (invoke ⟨"sp", [getUserLocation_part002, getWeather_part002], some abSchema⟩
        alwaysMissingB [] ⟨none, ctxUser1, 3⟩ ["hi"]).outcome
      = Outcome.failed .schemaNotSatisfied hist :=
  (structured_output_enforcement
    ⟨"sp", [getUserLocation_part002, getWeather_part002], some abSchema⟩ abSchema rfl
    alwaysMissingB (fun _ => Or.inr ⟨_, rfl, rfl⟩) [] ⟨none, ctxUser1, 3⟩ ["hi"]
    (by decide)).1

/-- C9.  Atomic thread persistence: an invocation that ends in `Failed`
commits no mutation of the Conversation Store — the store after the
invocation equals the store before it. -/
theorem atomic_thread_persistence (ag : AgentSpec) (model : ModelFn) (store : Store)
    (opts : InvokeOptions) (msgs : List String) (e : AgentError) (hist : List Message)
    (hfail : (invoke ag model store opts msgs).outcome = .failed e hist) :
    (invoke ag model store opts msgs).store = store := by
  rw [invoke_store, hfail]
  rfl

/-- Witness for C9: the failing run of the always-tool-calling model on a
store holding prior history for thread "A" leaves that store untouched. -/
theorem atomic_thread_persistence_witness :
    (invoke weatherAgent_part002 alwaysToolCall [("A", [Message.user "old"])]
      ⟨some "A", ctxUser1, 1⟩ ["hi"]).store = [("A", [Message.user "old"])] :=
  atomic_thread_persistence weatherAgent_part002 alwaysToolCall [("A", [Message.user "old"])]
    ⟨some "A", ctxUser1, 1⟩ ["hi"] .recursionLimitExceeded
    ([Message.user "old", Message.user "hi",
      Message.assistantToolCalls [("get_weather", .obj [("city", .str "Paris")])],
      Message.toolResult "get_weather" .ok "It's always sunny in Paris"]) rfl

/-- C6.  Valid-argument dispatch: for a registered tool and an argument
object validating against its input schema, `resolve` invokes that tool's
executor exactly once — the recorded executor-invocation trace is exactly
the validated arguments paired with the current runtime context — and its
result is the executor's result. -/
theorem valid_argument_dispatch (reg : List Tool) (ctx : RuntimeContext) (n : String)
    (t : Tool) (raw v : JsonVal)
    (hl : lookupTool reg n = some t) (hv : validate t.schema raw = some v) :
    (resolve reg ctx n raw).calls = [(n, v, ctx)]
    ∧ (resolve reg ctx n raw).result
      = (match t.executor v ctx with
          | .ok s => Except.ok s
          | .error m => Except.error (.toolExecution m)) := by
  unfold resolve
  rw [hl]
  dsimp only
  rw [hv]
  dsimp only
  cases hx : t.executor v ctx <;> simp [hx]

/-- Witness for C6: resolving `get_weather` on `{city: "Boston"}` invokes
its executor once with exactly those arguments and the current context. -/
theorem valid_argument_dispatch_witness :
    (resolve weatherAgent_part002.tools ctxUser1 "get_weather" (.obj [("city", .str "Boston")])).calls
      = [("get_weather", .obj [("city", .str "Boston")], ctxUser1)]
    ∧ (resolve weatherAgent_part002.tools ctxUser1 "get_weather" (.obj [("city", .str "Boston")])).result
      = Except.ok "It's always sunny in Boston" :=
  valid_argument_dispatch weatherAgent_part002.tools ctxUser1 "get_weather"
    getWeather_part002 (.obj [("city", .str "Boston")]) (.obj [("city", .str "Boston")]) rfl rfl

/-- C7.  Invalid-argument rejection: for a registered tool and an argument
object that fails schema validation, `resolve` fails with
InvalidArgumentsError and the executor-invocation trace is empty — the
executor is never invoked. -/
theorem invalid_argument_rejection (reg : List Tool) (ctx : RuntimeContext) (n : String)
    (t : Tool) (raw : JsonVal)
    (hl : lookupTool reg n = some t) (hv : validate t.schema raw = none) :
    (resolve reg ctx n raw).result = .error .invalidArguments
    ∧ (resolve reg ctx n raw).calls = [] := by
  unfold resolve
  rw [hl]
  dsimp only
  rw [hv]
  dsimp only
  exact ⟨rfl, rfl⟩

/-- Witness for C7: resolving `get_weather` on `{}` (required field `city`
missing) fails with InvalidArgumentsError and performs no executor call. -/
theorem invalid_argument_rejection_witness :
    (resolve weatherAgent_part002.tools ctxUser1 "get_weather" (.obj [])).result
      = .error .invalidArguments
    ∧ (resolve weatherAgent_part002.tools ctxUser1 "get_weather" (.obj [])).calls = [] :=
  invalid_argument_rejection weatherAgent_part002.tools ctxUser1 "get_weather"
    getWeather_part002 (.obj []) rfl rfl

/-- C8.  Executor failures are recoverable: when a registered tool's
executor fails on validated arguments, dispatch surfaces the failure as a
tool-result message of kind "error" carrying the executor's message, and a
tool-call turn continues the loop (re-entering `AwaitingModel` with the
results appended) rather than aborting the invocation. -/
theorem executor_failure_recoverable (reg : List Tool) (ctx : RuntimeContext) (n : String)
    (t : Tool) (raw v : JsonVal) (m : String)
    (hl : lookupTool reg n = some t) (hv : validate t.schema raw = some v)
    (hx : t.executor v ctx = .error m) :
    dispatchOne reg ctx (n, raw) = .toolResult n .err m
    ∧ ∀ (contract : Option ObjSchema) (sp : String) (model : ModelFn) (fuel : Nat)
        (pend : AgentError) (conv : List Message) (calls : List (String × JsonVal)),
        model (Message.system sp :: conv) = .toolCalls calls →
        runLoop reg ctx contract sp model (fuel + 1) pend conv
          = runLoop reg ctx contract sp model fuel .recursionLimitExceeded
              (conv ++ [Message.assistantToolCalls calls] ++ calls.map (dispatchOne reg ctx)) := by
  constructor
  · unfold dispatchOne resolve
    rw [hl]
    dsimp only
    rw [hv]
    dsimp only
    rw [hx]
    rfl
  · intro contract sp model fuel pend conv calls hr
    rw [runLoop]
    simp only [hr]

/-- Witness for C8: with an empty runtime context, the strict
`get_user_location` executor of part_005 fails and dispatch produces the
error-kind tool result carrying its thrown message. -/
theorem executor_failure_recoverable_witness :
    dispatchOne strictTools [] ("get_user_location", .obj [])
      = .toolResult "get_user_location" .err "user_id missing from execution context" :=
  (executor_failure_recoverable strictTools [] "get_user_location"
    getUserLocation_strict (.obj []) (.obj []) "user_id missing from execution context"
    rfl rfl rfl).1

/-- C10.  In the part_003 variant, `db.users.getById` is total — every
lookup, including an unknown or missing (`undefined`) id, returns a record
(falling back to `{city: "Unknown"}`) — so its `get_user_location`
executor never throws, even when the runtime context omits `userId`. -/
theorem part003_getById_total (uid : Option String) (args : JsonVal) (ctx : RuntimeContext)
    (hmiss : ctxGet ctx "userId" = none) :
    (db_users_getById uid = ⟨"New York"⟩ ∨ db_users_getById uid = ⟨"San Francisco"⟩
      ∨ db_users_getById uid = ⟨"Unknown"⟩)
    ∧ (∀ (a : JsonVal) (c : RuntimeContext), ∃ s, getUserLocation_part003.executor a c = .ok s)
    ∧ getUserLocation_part003.executor args ctx = .ok "Unknown" := by
  refine ⟨?_, ?_, ?_⟩
  · cases uid with
    | none => exact Or.inr (Or.inr rfl)
    | some u =>
      by_cases h1 : u = "1"
      · subst h1; exact Or.inl rfl
      · by_cases h2 : u = "2"
        · subst h2; exact Or.inr (Or.inl rfl)
        · have b1 : (u == "1") = false := beq_eq_false_iff_ne.mpr h1
          have b2 : (u == "2") = false := beq_eq_false_iff_ne.mpr h2
          simp [db_users_getById, usersTable, List.lookup, b1, b2]
  · intro a c
    exact ⟨(db_users_getById (ctxGet c "userId")).city, rfl⟩
  · show Except.ok (db_users_getById (ctxGet ctx "userId")).city = .ok "Unknown"
    rw [hmiss]
    rfl

/-- Witness for C10: an unknown id falls back to "Unknown", and a context
carrying only `user_id` (not `userId`) makes the executor return
`ok "Unknown"` instead of throwing. -/
theorem part003_getById_total_witness :
    (db_users_getById (some "42") = ⟨"New York"⟩
      ∨ db_users_getById (some "42") = ⟨"San Francisco"⟩
      ∨ db_users_getById (some "42") = ⟨"Unknown"⟩)
    ∧ (∀ (a : JsonVal) (c : RuntimeContext), ∃ s, getUserLocation_part003.executor a c = .ok s)
    ∧ getUserLocation_part003.executor (.obj []) ctxUser1 = .ok "Unknown" :=
  part003_getById_total (some "42") (.obj []) ctxUser1 rfl

/-- C5.  Example scenario correctness: the part_002 agent with tools
`get_user_location` and `get_weather`, the weather question and context
`{user_id: "1"}`, under the scripted two-step model, ends `Done`; the
final assistant content is the weather tool's output, contains
"sunny in New York", and is reached via the two sequential tool calls —
location first, then weather. -/
theorem example_scenario_weather :
    isDone (scenarioRun ctxUser1).outcome = true
    ∧ finalAssistant (outcomeHistory (scenarioRun ctxUser1).outcome)
        = some "It's always sunny in New York"
    ∧ containsStr ((finalAssistant (outcomeHistory (scenarioRun ctxUser1).outcome)).getD "")
        "sunny in New York" = true
    ∧ toolCallNames (outcomeHistory (scenarioRun ctxUser1).outcome)
        = ["get_user_location", "get_weather"] :=
  ⟨rfl, rfl, rfl, rfl⟩

/-- C4.  Context noninterference: the runtime context influences a run
only through the tool executors (two contexts on which every registered
executor agrees yield identical runs — in particular the context itself is
never an input of the Model Gateway, whose only input is the message
history); concretely, two scenario runs differing only in `user_id`
("1" versus "2") yield the two respective independent tool outputs, and
the `user_id` value never occurs in any model-visible message content of
either run, since no tool returns it. -/
theorem context_noninterference (c1 c2 : RuntimeContext)
    (hu1 : ctxGet c1 "user_id" = some "1") (hu2 : ctxGet c2 "user_id" = some "2") :
    (∀ (reg : List Tool) (cA cB : RuntimeContext) (contract : Option ObjSchema) (sp : String)
        (model : ModelFn) (fuel : Nat) (pend : AgentError) (conv : List Message),
        (∀ t ∈ reg, ∀ a, t.executor a cA = t.executor a cB) →
        runLoop reg cA contract sp model fuel pend conv
          = runLoop reg cB contract sp model fuel pend conv)
    ∧ toolResultRecords (outcomeHistory (scenarioRun c1).outcome)
        = [("get_user_location", .ok, "New York"),
           ("get_weather", .ok, "It's always sunny in New York")]
    ∧ toolResultRecords (outcomeHistory (scenarioRun c2).outcome)
        = [("get_user_location", .ok, "San Francisco"),
           ("get_weather", .ok, "It's always sunny in San Francisco")]
    ∧ (msgContents (outcomeHistory (scenarioRun c1).outcome)).all
        (fun s => !containsStr s "1") = true
    ∧ (msgContents (outcomeHistory (scenarioRun c2).outcome)).all
        (fun s => !containsStr s "2") = true := by
  have hag1 : ∀ t ∈ weatherAgent_part002.tools, ∀ a, t.executor a c1 = t.executor a ctxUser1 := by
    intro t ht a
    have ht' : t ∈ [getUserLocation_part002, getWeather_part002] := ht
    cases ht' with
    | head =>
      show getUserLocation_part002.executor a c1 = getUserLocation_part002.executor a ctxUser1
      dsimp only [getUserLocation_part002]
      rw [hu1]
      rfl
    | tail _ ht2 =>
      cases ht2 with
      | head => rfl
      | tail _ h3 => cases h3
  have hag2 : ∀ t ∈ weatherAgent_part002.tools, ∀ a, t.executor a c2 = t.executor a ctxUser2 := by
    intro t ht a
    have ht' : t ∈ [getUserLocation_part002, getWeather_part002] := ht
    cases ht' with
    | head =>
      show getUserLocation_part002.executor a c2 = getUserLocation_part002.executor a ctxUser2
      dsimp only [getUserLocation_part002]
      rw [hu2]
      rfl
    | tail _ ht2 =>
      cases ht2 with
      | head => rfl
      | tail _ h3 => cases h3
  have e1 : (scenarioRun c1).outcome = (scenarioRun ctxUser1).outcome :=
    runLoop_ctx_congr weatherAgent_part002.tools hag1 weatherAgent_part002.responseFormat
      weatherAgent_part002.systemPrompt weatherScript 5 .recursionLimitExceeded
      (replayed [] none ++ [weatherQuestion].map Message.user)
  have e2 : (scenarioRun c2).outcome = (scenarioRun ctxUser2).outcome :=
    runLoop_ctx_congr weatherAgent_part002.tools hag2 weatherAgent_part002.responseFormat
      weatherAgent_part002.systemPrompt weatherScript 5 .recursionLimitExceeded
      (replayed [] none ++ [weatherQuestion].map Message.user)
  refine ⟨fun reg cA cB contract sp model fuel pend conv hag =>
    runLoop_ctx_congr reg hag contract sp model fuel pend conv, ?_, ?_, ?_, ?_⟩
  · rw [e1]; rfl
  · rw [e2]; rfl
  · rw [e1]; rfl
  · rw [e2]; rfl

/-- Witness for C4: the two concrete runs with `user_id` "1" and "2"
produce "New York" and "San Francisco" tool outputs respectively. -/
theorem context_noninterference_witness :
    toolResultRecords (outcomeHistory (scenarioRun ctxUser1).outcome)
      = [("get_user_location", .ok, "New York"),
         ("get_weather", .ok, "It's always sunny in New York")]
    ∧ toolResultRecords (outcomeHistory (scenarioRun ctxUser2).outcome)
      = [("get_user_location", .ok, "San Francisco"),
         ("get_weather", .ok, "It's always sunny in San Francisco")] :=
  ⟨(context_noninterference ctxUser1 ctxUser2 rfl rfl).2.1,
   (context_noninterference ctxUser1 ctxUser2 rfl rfl).2.2.1⟩

/-- C1.  Thread isolation: invoking thread "A" with `msg1`, then thread
"B" with `msg2` (A ≠ B, both invocations reaching `Done`), the store the
third invocation of thread "A" would replay is exactly the first
invocation's full history — it contains `msg1` (and, being the whole
history, its outcomes) and never `msg2` — and the two threads' stored
histories are fully disjoint in their user messages. -/
theorem thread_isolation (ag : AgentSpec) (model : ModelFn) (ms1 ms2 : Nat)
    (cA cB : RuntimeContext) (A B : String) (hAB : A ≠ B)
    (msg1 msg2 : String) (h12 : msg1 ≠ msg2)
    (h1 h2 : List Message) (sv1 sv2 : Option JsonVal)
    (hd1 : (invoke ag model [] ⟨some A, cA, ms1⟩ [msg1]).outcome = .done h1 sv1)
    (hd2 : (invoke ag model (invoke ag model [] ⟨some A, cA, ms1⟩ [msg1]).store
              ⟨some B, cB, ms2⟩ [msg2]).outcome = .done h2 sv2) :
    replayed (invoke ag model (invoke ag model [] ⟨some A, cA, ms1⟩ [msg1]).store
        ⟨some B, cB, ms2⟩ [msg2]).store (some A) = h1
    ∧ Message.user msg1 ∈ h1
    ∧ Message.user msg2 ∉ h1
    ∧ userContents h1 = [msg1]
    ∧ userContents h2 = [msg2]
    ∧ ∀ s ∈ userContents h1, s ∉ userContents h2 := by
  have st1eq : (invoke ag model [] ⟨some A, cA, ms1⟩ [msg1]).store = setStore [] A h1 := by
    rw [invoke_store, hd1]
    rfl
  have huc1 : userContents h1 = [msg1] := by
    have h := invoke_userContents ag model [] ⟨some A, cA, ms1⟩ [msg1] h1 sv1 hd1
    simpa [replayed, lookupStore, userContents] using h
  have huc2 : userContents h2 = [msg2] := by
    have h := invoke_userContents ag model (invoke ag model [] ⟨some A, cA, ms1⟩ [msg1]).store
      ⟨some B, cB, ms2⟩ [msg2] h2 sv2 hd2
    rw [st1eq] at h
    dsimp only [replayed] at h
    rw [lookupStore_set_other [] A B h1 (Ne.symm hAB)] at h
    simpa [lookupStore, userContents] using h
  have st2eq : (invoke ag model (invoke ag model [] ⟨some A, cA, ms1⟩ [msg1]).store
      ⟨some B, cB, ms2⟩ [msg2]).store
      = setStore ((invoke ag model [] ⟨some A, cA, ms1⟩ [msg1]).store) B h2 := by
    rw [invoke_store, hd2]
    rfl
  refine ⟨?_, ?_, ?_, huc1, huc2, ?_⟩
  · rw [st2eq, st1eq]
    dsimp only [replayed]
    rw [lookupStore_set_other (setStore [] A h1) B A h2 hAB, lookupStore_set_same]
  · exact mem_userContents.mp (by rw [huc1]; exact List.mem_singleton.mpr rfl)
  · intro hmem
    have hm2 : msg2 ∈ userContents h1 := mem_userContents.mpr hmem
    rw [huc1] at hm2
    exact h12 (List.mem_singleton.mp hm2).symm
  · intro s hs1 hs2
    rw [huc1] at hs1
    rw [huc2] at hs2
    exact h12 ((List.mem_singleton.mp hs1).symm.trans (List.mem_singleton.mp hs2))

/-- Witness for C1: two single-step conversations on threads "A" and "B"
with a constant final-answer model. -/
theorem thread_isolation_witness :
    replayed (invoke ⟨"sys", [], none⟩ (fun _ => .finalText "hello")
        (invoke ⟨"sys", [], none⟩ (fun _ => .finalText "hello") [] ⟨some "A", [], 1⟩ ["m1"]).store
        ⟨some "B", [], 1⟩ ["m2"]).store (some "A")
      = [Message.user "m1", Message.assistantText "hello"]
    ∧ Message.user "m1" ∈ [Message.user "m1", Message.assistantText "hello"]
    ∧ Message.user "m2" ∉ [Message.user "m1", Message.assistantText "hello"]
    ∧ userContents [Message.user "m1", Message.assistantText "hello"] = ["m1"]
    ∧ userContents [Message.user "m2", Message.assistantText "hello"] = ["m2"]
    ∧ ∀ s ∈ userContents [Message.user "m1", Message.assistantText "hello"],
        s ∉ userContents [Message.user "m2", Message.assistantText "hello"] :=
  thread_isolation ⟨"sys", [], none⟩ (fun _ => .finalText "hello") 1 1 [] [] "A" "B"
    (by decide) "m1" "m2" (by decide)
    [Message.user "m1", Message.assistantText "hello"]
    [Message.user "m2", Message.assistantText "hello"] none none rfl rfl

end Agent
